import Mathlib

/-!
Verification model of the ckube in-memory store (`store/memory/memory.go` and
`store/interface.go`): the multi-level sharded map, the per-resource-type
indexer, and the filter/sort/paginate query engine. Go maps are modelled as
association lists (iteration order of a Go map is unspecified; the list order
is a determinization of it). Go runtime panics (assignment into a nil map,
slice bounds out of range) are modelled as `none` results. Locks and the
Prometheus metric calls carry no sequential meaning and are not modelled.
-/

namespace Ckube

/-! ### Association lists modelling Go maps -/

/-- Lookup in a Go map modelled as an association list (comma-ok form). -/
def alGet? [DecidableEq κ] : List (κ × α) → κ → Option α
  | [], _ => none
  | p :: ps, k => if p.1 = k then some p.2 else alGet? ps k

/-- Go map read without comma-ok: a missing key yields the zero value `d`. -/
def alGetD [DecidableEq κ] (m : List (κ × α)) (k : κ) (d : α) : α :=
  (alGet? m k).getD d

/-- Go map assignment `m[k] = v`: replace the binding if present, else add it. -/
def alSet [DecidableEq κ] : List (κ × α) → κ → α → List (κ × α)
  | [], k, v => [(k, v)]
  | p :: ps, k, v => if p.1 = k then (k, v) :: ps else p :: alSet ps k v

/-- Go `delete(m, k)`: remove the binding for `k` if present. -/
def alDel [DecidableEq κ] : List (κ × α) → κ → List (κ × α)
  | [], _ => []
  | p :: ps, k => if p.1 = k then alDel ps k else p :: alDel ps k

/-! ### Go string primitives used by the store

Only the fragments of the Go standard library that `memory.go` relies on are
modelled, on the logical `List Char` view of strings. -/

/-- Characters treated as space by `strings.TrimSpace` (ASCII part of
`unicode.IsSpace`; the non-ASCII space code points are not exercised here). -/
def isGoSpace (c : Char) : Bool :=
  c == ' ' || c == '\t' || c == '\n' || c == '\r' || c == '\x0b' || c == '\x0c'

/-- `strings.TrimSpace`. -/
def goTrim (s : String) : String :=
  String.mk (((s.toList.dropWhile isGoSpace).reverse.dropWhile isGoSpace).reverse)

/-- Core of `strings.Split` for a one-character separator. The result is never
empty: an input with no separator yields the single-element list. -/
def goSplitChar (sep : Char) : List Char → List (List Char)
  | [] => [[]]
  | c :: cs =>
    match goSplitChar sep cs with
    | h :: t => if c = sep then [] :: h :: t else (c :: h) :: t
    | [] => [[c]]

/-- `strings.Split(s, sep)` for the one-character separators used by the store
(`","`, `" "`, `":"`). `strings.Contains(s, sep)` is equivalent to the split
having more than one part, which is how the source's Contains-then-Split flow
is modelled. -/
def goSplit (s : String) (sep : Char) : List String :=
  (goSplitChar sep s.toList).map String.mk

/-- Go byte-wise string comparison `<` as a Bool. On valid UTF-8, byte-wise
order coincides with code-point order, so comparing `Char` values is exact. -/
def charListLt : List Char → List Char → Bool
  | [], [] => false
  | [], _ :: _ => true
  | _ :: _, [] => false
  | a :: as, b :: bs => if a < b then true else if b < a then false else charListLt as bs

/-- Go `s < t` on strings. -/
def goStrLt (a b : String) : Bool := charListLt a.toList b.toList

/-- Digit-list accumulator for decimal parsing. -/
def digitsValAux (acc : Nat) : List Char → Option Nat
  | [] => some acc
  | c :: cs => if c.isDigit then digitsValAux (acc * 10 + (c.toNat - 48)) cs else none

/-- `strconv.ParseFloat(s, 64)` modelled on plain decimal literals: optional
sign, integer digits, optional fractional digits, parsed exactly into `Rat`.
Exponents, hex floats, Inf/NaN and binary-float rounding are outside the
behaviours exercised by the store's sort comparator on the inputs studied
here. -/
def parseDecimal (s : String) : Option Rat :=
  let cs := s.toList
  let sc : Bool × List Char :=
    match cs with
    | '-' :: r => (true, r)
    | '+' :: r => (false, r)
    | _ => (false, cs)
  let ip := sc.2.takeWhile (fun c => c != '.')
  let rest := sc.2.dropWhile (fun c => c != '.')
  match rest with
  | [] =>
    if ip.isEmpty then none
    else (digitsValAux 0 ip).map (fun n => if sc.1 then -(n : Rat) else (n : Rat))
  | _ :: frac =>
    if ip.isEmpty && frac.isEmpty then none
    else
      match digitsValAux 0 ip, digitsValAux 0 frac with
      | some a, some b =>
        let v : Rat := (a : Rat) + (b : Rat) / ((10 : Rat) ^ frac.length)
        some (if sc.1 then -v else v)
      | _, _ => none

/-- Insertion step of a comparison sort by a Bool "less" relation. -/
def insertBy (less : α → α → Bool) (x : α) : List α → List α
  | [] => [x]
  | y :: ys => if less x y then x :: y :: ys else y :: insertBy less x ys

/-- Comparison sort by a Bool "less" relation (used for the deterministic
JSON key order of `json.Marshal` on a `map[string]string`). -/
def sortBy (less : α → α → Bool) : List α → List α
  | [] => []
  | x :: xs => insertBy less x (sortBy less xs)

/-! ### Data model (`store` package types and the memory store shards) -/

/-- `store.GroupVersionResource`. -/
structure GroupVersionResource where
  group : String
  version : String
  resource : String
deriving DecidableEq

/-- The slice of `metav1.Object` the indexer uses: a deletion marker and the
annotations map. An object whose `meta` is `none` models a raw payload that
does not implement `metav1.Object` (the type assertion at the end of
`buildResourceWithIndex` fails for it). -/
structure ObjectMeta where
  deletionTimestamp : Bool
  annotations : List (String × String)
deriving DecidableEq

/-- A raw object handed to the store. The external jsonpath evaluator of the
indexer (an out-of-core capability per the spec) is modelled as a per-object
table from extraction path to extracted string; a missing path evaluates to
the empty string, matching `AllowMissingKeys(true)`. -/
structure RawObject where
  paths : List (String × String)
  meta : Option ObjectMeta
deriving DecidableEq

/-- `store.Object`: the indexed object kept in a namespace bucket. -/
structure Object where
  Index : List (String × String)
  Obj : RawObject
deriving DecidableEq

/-- `resourceObj`: one namespace bucket (its lock is not modelled). -/
structure resourceObj where
  objMap : List (String × Object)
deriving DecidableEq

/-- `namespaceResource`: namespace name to bucket. -/
abbrev namespaceResource := List (String × resourceObj)

/-- `clusterObj`: one cluster shard (its lock is not modelled). -/
structure clusterObj where
  namespaces : namespaceResource
deriving DecidableEq

/-- `clusterResource`: cluster name to shard. -/
abbrev clusterResource := List (String × clusterObj)

/-- `memoryStore`: the two-level resource map plus the immutable index
configuration. -/
structure memoryStore where
  resourceMap : List (GroupVersionResource × clusterResource)
  indexConf : List (GroupVersionResource × List (String × String))
deriving DecidableEq

/-- `store.Query`: namespace filter, bound predicate, sort spec and page
window. The predicate and the paginate fields live in the `store`/common
packages outside `memory.go`; modelled from the spec: `Match(Index) ->
(bool, error)`, `sort-spec: string`, `page, pageSize: integer`. The field
written `Sort` in Go is `sort` here (`Sort` is reserved in Lean). -/
structure StoreQuery where
  Namespace : String
  Match : List (String × String) → Bool × Option String
  sort : String
  Page : Int
  PageSize : Int

/-- `store.QueryResult` (declared outside the analysed files); modelled from
the spec: ordered raw payloads, the pre-pagination total, and an optional
error. The zero value has empty items, total 0 and no error. -/
structure QueryResult where
  Items : List RawObject
  Total : Int
  Error : Option String
deriving DecidableEq

/-! ### Constants (`common/constants`, outside the analysed sources)

Modelled from the spec: the sort grammar is `key[:type] [ASC|DESC]` with
types `str` and `int`, so the constant tokens are fixed accordingly; the two
annotation keys are dedicated provenance keys whose exact spelling no
behaviour here depends on. -/

/-- Modelled from the spec: `constants.KeyTypeStr`. -/
def KeyTypeStr : String := "str"

/-- Modelled from the spec: `constants.KeyTypeInt`. -/
def KeyTypeInt : String := "int"

/-- Modelled from the spec: `constants.SortASC`. -/
def SortASC : String := "ASC"

/-- Modelled from the spec: `constants.SortDesc`. -/
def SortDesc : String := "DESC"

/-- Modelled from the spec: `constants.DSMClusterAnno`, the annotation key
carrying cluster identity. -/
def DSMClusterAnno : String := "dsm.daocloud.io/cluster"

/-- Modelled from the spec: `constants.IndexAnno`, the annotation key carrying
the serialized index. -/
def IndexAnno : String := "dsm.daocloud.io/indexes"

/-- `json.Marshal` of a `map[string]string`: keys in sorted order. String
escaping is not modelled (no behaviour here inspects the serialized text). -/
def serializeIndex (idx : List (String × String)) : String :=
  let sorted := sortBy (fun a b => goStrLt a.1 b.1) idx
  "\x7b" ++ String.intercalate "," (sorted.map (fun kv => "\"" ++ kv.1 ++ "\":\"" ++ kv.2 ++ "\"")) ++ "\x7d"

/-! ### The store operations (`memory.go`) -/

/-- `NewMemoryStore`: one empty cluster map per configured resource type. -/
def NewMemoryStore (indexConf : List (GroupVersionResource × List (String × String))) : memoryStore :=
  ⟨indexConf.map (fun kv => (kv.1, ([] : clusterResource))), indexConf⟩

/-- `buildResourceWithIndex` (lines 316-366): evaluate each configured
extraction path (missing path gives `""`, evaluation errors are logged and
leave the already-written empty value), read `namespace`/`name` out of the
configured entries, stamp the `cluster` built-in, and for metadata-bearing
objects stamp `is_deleted` and write the provenance annotations back onto the
object. Returns (namespace, name, indexed object). -/
def buildResourceWithIndex (conf : List (String × String)) (cluster : String)
    (obj : RawObject) : String × String × Object :=
  let idx0 := conf.foldl (fun acc kv => alSet acc kv.1 (alGetD obj.paths kv.2 "")) ([] : List (String × String))
  let ns := alGetD idx0 "namespace" ""
  let name := alGetD idx0 "name" ""
  let idx1 := alSet idx0 "cluster" cluster
  match obj.meta with
  | none => (ns, name, ⟨idx1, obj⟩)
  | some mo =>
    let idx2 := alSet idx1 "is_deleted" (if mo.deletionTimestamp then "true" else "false")
    let anno1 := alSet mo.annotations DSMClusterAnno cluster
    let anno2 := alSet anno1 IndexAnno (serializeIndex idx2)
    (ns, name, ⟨idx2, ⟨obj.paths, some ⟨mo.deletionTimestamp, anno2⟩⟩⟩)

/-- The index configuration for one resource type (`m.indexConf[gvr]`; a nil
map when the type was never configured). -/
def confFor (m : memoryStore) (gvr : GroupVersionResource) : List (String × String) :=
  (alGet? m.indexConf gvr).getD []

/-- The namespace `buildResourceWithIndex` derives for an object under this
store's configuration. -/
def derivedNs (m : memoryStore) (gvr : GroupVersionResource) (cluster : String)
    (obj : RawObject) : String :=
  (buildResourceWithIndex (confFor m gvr) cluster obj).1

/-- The name `buildResourceWithIndex` derives for an object under this store's
configuration. -/
def derivedName (m : memoryStore) (gvr : GroupVersionResource) (cluster : String)
    (obj : RawObject) : String :=
  (buildResourceWithIndex (confFor m gvr) cluster obj).2.1

/-- The indexed object `buildResourceWithIndex` builds for an object under
this store's configuration. -/
def builtFor (m : memoryStore) (gvr : GroupVersionResource) (cluster : String)
    (obj : RawObject) : Object :=
  (buildResourceWithIndex (confFor m gvr) cluster obj).2.2

/-- `initResourceNamespace` (lines 54-83): lazily create the cluster shard and
namespace bucket. When `gvr` was never configured, `m.resourceMap[gvr]` is a
nil map and the assignment `m.resourceMap[gvr][cluster] = ...` panics at
runtime — modelled as `none`. -/
def initResourceNamespace (m : memoryStore) (gvr : GroupVersionResource)
    (cluster ns : String) : Option memoryStore :=
  match alGet? m.resourceMap gvr with
  | none => none
  | some cr =>
    match alGet? cr cluster with
    | some c =>
      match alGet? c.namespaces ns with
      | some _ => some m
      | none =>
        some ⟨alSet m.resourceMap gvr (alSet cr cluster ⟨alSet c.namespaces ns ⟨[]⟩⟩), m.indexConf⟩
    | none =>
      some ⟨alSet m.resourceMap gvr (alSet cr cluster ⟨[(ns, ⟨[]⟩)]⟩), m.indexConf⟩

/-- `IsStoreGVR` (lines 85-90). -/
def IsStoreGVR (m : memoryStore) (gvr : GroupVersionResource) : Bool :=
  (alGet? m.indexConf gvr).isSome

/-- `Clean` (lines 92-103): replace the cluster's namespace map with an empty
one when the resource type is known, else a not-found error (the message
formats the gvr with `fmt.Errorf("resource %s not found", gvr)`; its gvr
rendering is modelled as group/version/resource). -/
def Clean (m : memoryStore) (gvr : GroupVersionResource) (cluster : String) :
    memoryStore × Option String :=
  match alGet? m.resourceMap gvr with
  | some cr => (⟨alSet m.resourceMap gvr (alSet cr cluster ⟨[]⟩), m.indexConf⟩, none)
  | none => (m, some ("resource " ++ gvr.group ++ "/" ++ gvr.version ++ "/" ++ gvr.resource ++ " not found"))

/-- The write `m.resourceMap[gvr][cluster].namespaces[ns].objMap[name] = o`
(line 112/125). Every level exists after `initResourceNamespace`; a missing
level would be a nil-map write panic, modelled as `none`. -/
def setObj (m : memoryStore) (gvr : GroupVersionResource) (cluster ns name : String)
    (o : Object) : Option memoryStore :=
  match alGet? m.resourceMap gvr with
  | none => none
  | some cr =>
    match alGet? cr cluster with
    | none => none
    | some c =>
      match alGet? c.namespaces ns with
      | none => none
      | some b =>
        some ⟨alSet m.resourceMap gvr (alSet cr cluster ⟨alSet c.namespaces ns ⟨alSet b.objMap name o⟩⟩), m.indexConf⟩

/-- The delete `delete(m.resourceMap[gvr][cluster].namespaces[ns].objMap, name)`
(line 138). -/
def delObj (m : memoryStore) (gvr : GroupVersionResource) (cluster ns name : String) :
    Option memoryStore :=
  match alGet? m.resourceMap gvr with
  | none => none
  | some cr =>
    match alGet? cr cluster with
    | none => none
    | some c =>
      match alGet? c.namespaces ns with
      | none => none
      | some b =>
        some ⟨alSet m.resourceMap gvr (alSet cr cluster ⟨alSet c.namespaces ns ⟨alDel b.objMap name⟩⟩), m.indexConf⟩

/-- `OnResourceAdded` (lines 105-116): index, lazily create, upsert. Returns
the new store and the (always nil) error; `none` models the panic on an
unconfigured resource type. -/
def OnResourceAdded (m : memoryStore) (gvr : GroupVersionResource) (cluster : String)
    (obj : RawObject) : Option (memoryStore × Option String) :=
  let r := buildResourceWithIndex (confFor m gvr) cluster obj
  match initResourceNamespace m gvr cluster r.1 with
  | none => none
  | some m1 =>
    match setObj m1 gvr cluster r.1 r.2.1 r.2.2 with
    | none => none
    | some m2 => some (m2, none)

/-- `OnResourceModified` (lines 118-129): textually identical to
`OnResourceAdded`. -/
def OnResourceModified (m : memoryStore) (gvr : GroupVersionResource) (cluster : String)
    (obj : RawObject) : Option (memoryStore × Option String) :=
  let r := buildResourceWithIndex (confFor m gvr) cluster obj
  match initResourceNamespace m gvr cluster r.1 with
  | none => none
  | some m1 =>
    match setObj m1 gvr cluster r.1 r.2.1 r.2.2 with
    | none => none
    | some m2 => some (m2, none)

/-- `OnResourceDeleted` (lines 131-142): index (values are derived, most are
discarded), lazily create, then remove by name. -/
def OnResourceDeleted (m : memoryStore) (gvr : GroupVersionResource) (cluster : String)
    (obj : RawObject) : Option (memoryStore × Option String) :=
  let r := buildResourceWithIndex (confFor m gvr) cluster obj
  match initResourceNamespace m gvr cluster r.1 with
  | none => none
  | some m1 =>
    match delObj m1 gvr cluster r.1 r.2.1 with
    | none => none
    | some m2 => some (m2, none)

/-- `Get` (lines 246-263): point lookup returning the raw payload. -/
def Get (m : memoryStore) (gvr : GroupVersionResource) (cluster ns name : String) :
    Option RawObject :=
  match alGet? m.resourceMap gvr with
  | none => none
  | some cr =>
    match alGet? cr cluster with
    | none => none
    | some c =>
      match alGet? c.namespaces ns with
      | none => none
      | some b =>
        match alGet? b.objMap name with
        | none => none
        | some o => some o.Obj

/-! ### The sort machinery (`sortObjs`, lines 144-244) -/

/-- `innerSort`: a parsed sort term. `typ` keeps the source's string constants
(`"str"`/`"int"`). -/
structure innerSort where
  key : String
  typ : String
  reverse : Bool
deriving DecidableEq

/-- Outcome of the term-parsing loop of `sortObjs`: parsed terms, the silent
`return objs, nil` taken for a term of more than two space-separated tokens,
or a hard error. -/
inductive ParseOutcome
  | ok (sorts : List innerSort)
  | skip
  | err (msg : String)
deriving DecidableEq

/-- The space-token phase of one sort term (lines 169-186): no space keeps the
term; more than two tokens silently aborts the whole sort; a second token must
be the DESC/ASC constant. -/
def parseSpace (s : String) : (String × Bool) ⊕ ParseOutcome :=
  if (goSplit s ' ').length = 1 then Sum.inl (s, false)
  else if 2 < (goSplit s ' ').length then Sum.inr ParseOutcome.skip
  else
    match goSplit s ' ' with
    | [k, d] =>
      if d = SortDesc then Sum.inl (k, true)
      else if d = SortASC then Sum.inl (k, false)
      else Sum.inr (ParseOutcome.err ("error sort format `" ++ d ++ "`"))
    | _ => Sum.inl (s, false)

/-- The `key:type` phase of one sort term (lines 187-201). -/
def parseType (s : String) : (String × String) ⊕ String :=
  if (goSplit s ':').length = 1 then Sum.inl (s, KeyTypeStr)
  else
    match goSplit s ':' with
    | [k, t] =>
      if t = KeyTypeInt then Sum.inl (k, KeyTypeInt)
      else if t = KeyTypeStr then Sum.inl (k, KeyTypeStr)
      else Sum.inr ("unsupported typ: " ++ t)
    | _ => Sum.inr "error type format"

/-- The whole term-parsing loop (lines 160-207): trim each comma-separated
term, skip empties, run the space and type phases, and require the key to be
present in the first candidate's index map. -/
def parseSortTerms (ckm : List (String × String)) : List String → ParseOutcome
  | [] => ParseOutcome.ok []
  | t :: ts =>
    let s := goTrim t
    if s = "" then parseSortTerms ckm ts
    else
      match parseSpace s with
      | Sum.inr r => r
      | Sum.inl sd =>
        match parseType sd.1 with
        | Sum.inr msg => ParseOutcome.err msg
        | Sum.inl kt =>
          if (alGet? ckm kt.1).isSome then
            match parseSortTerms ckm ts with
            | ParseOutcome.ok sorts => ParseOutcome.ok (⟨kt.1, kt.2, sd.2⟩ :: sorts)
            | r => r
          else ParseOutcome.err ("unexpected sort key: " ++ kt.1)

/-- The multi-key comparator of `sort.Slice` (lines 209-242), with the error
it records when an int-typed value fails to parse: on a parse failure the Go
loop breaks and falls through to `return true`. A missing index key reads as
`""` (Go map zero value). -/
def sortLessE (sorts : List innerSort) (a b : Object) : Bool × Option String :=
  match sorts with
  | [] => (true, none)
  | s :: rest =>
    let vis := alGetD a.Index s.key ""
    let vjs := alGetD b.Index s.key ""
    if s.typ = KeyTypeInt then
      match parseDecimal vis, parseDecimal vjs with
      | some vi, some vj =>
        if vi = vj then sortLessE rest a b
        else (if s.reverse then !(decide (vi < vj)) else decide (vi < vj), none)
      | _, _ => (true, some ("value of `" ++ s.key ++ "` can not convert to number"))
    else
      if vis = vjs then sortLessE rest a b
      else (if s.reverse then !(goStrLt vis vjs) else goStrLt vis vjs, none)

/-- Insertion step of the model sort, threading the comparator's error slot
(the later comparison's error wins, like the captured `sortErr`). -/
def insertByE (less : α → α → Bool × Option String) (x : α) :
    List α → List α × Option String
  | [] => ([x], none)
  | y :: ys =>
    let c := less x y
    if c.1 then (x :: y :: ys, c.2)
    else
      let r := insertByE less x ys
      (y :: r.1, match r.2 with | some e => some e | none => c.2)

/-- The model of `sort.Slice` with the captured error slot. `sort.Slice` is an
unstable sort whose result is unspecified for a comparator that is not a
strict weak order (this comparator reports `true` on equal pairs), and the set
of pairs it compares — hence whether the in-comparison parse error fires — is
algorithm-dependent; an insertion sort determinizes both. -/
def sortByE (less : α → α → Bool × Option String) : List α → List α × Option String
  | [] => ([], none)
  | x :: xs =>
    let r := sortByE less xs
    let i := insertByE less x r.1
    (i.1, match i.2 with | some e => some e | none => r.2)

/-- `sortObjs` (lines 150-244): default spec, term parsing against the first
candidate's index, then the comparator sort. A `skip` outcome returns the
input order with a nil error; a parse error returns the input order with that
error. -/
def sortObjs (objs : List Object) (s : String) : List Object × Option String :=
  let s1 := if s = "" then "cluster, namespace, name" else s
  match objs with
  | [] => (objs, none)
  | first :: _ =>
    match parseSortTerms first.Index (goSplit s1 ',') with
    | ParseOutcome.skip => (objs, none)
    | ParseOutcome.err m => (objs, some m)
    | ParseOutcome.ok sorts => sortByE (sortLessE sorts) objs

/-! ### Query (lines 265-314) -/

/-- The candidate objects the Query scan visits: every cluster shard of the
resource type, every namespace bucket (or only the one matching the query's
namespace). An unconfigured resource type has a nil cluster map: no
candidates. -/
def candidateObjs (m : memoryStore) (gvr : GroupVersionResource) (ns : String) :
    List Object :=
  ((((alGet? m.resourceMap gvr).getD []).map (fun cl =>
    (cl.2.namespaces.map (fun nsb =>
      if ns = "" ∨ ns = nsb.1 then nsb.2.objMap.map (fun p => p.2) else [])).flatten)).flatten)

/-- The filter scan of Query (lines 273-279): a matching object is collected
(a simultaneous error is ignored); a non-matching object's error overwrites
the single error slot. -/
def matchScan (query : StoreQuery) (objs : List Object) : List Object × Option String :=
  objs.foldl
    (fun acc obj =>
      let mr := query.Match obj.Index
      if mr.1 then (acc.1 ++ [obj], acc.2)
      else
        match mr.2 with
        | some e => (acc.1, some e)
        | none => acc)
    ([], none)

/-- The Go slice expression `xs[a:b]`: defined when `0 ≤ a ≤ b ≤ len`,
otherwise a runtime bounds panic, modelled as `none`. -/
def goSlice (xs : List α) (a b : Int) : Option (List α) :=
  if 0 ≤ a ∧ a ≤ b ∧ b ≤ (xs.length : Int) then
    some ((xs.drop a.toNat).take (b - a).toNat)
  else none

/-- `Query` (lines 265-314): scan and filter, early return on an empty match
set, sort (a sort error discards the filtered set), then paginate with
`start = (page-1)*pageSize`, `end = start+pageSize`, each clamped above to the
total but never below to zero. `none` models the slice panic that an
unclamped negative `start` (or a negative page size) produces. -/
def Query (m : memoryStore) (gvr : GroupVersionResource) (query : StoreQuery) :
    Option QueryResult :=
  let scan := matchScan query (candidateObjs m gvr query.Namespace)
  let l : Int := scan.1.length
  if l = 0 then some ⟨[], 0, scan.2⟩
  else
    let so := sortObjs scan.1 query.sort
    match so.2 with
    | some err => some ⟨[], 0, some err⟩
    | none =>
      let se : Int × Int :=
        if query.PageSize = 0 then (0, l)
        else
          (if (query.Page - 1) * query.PageSize ≥ l then l else (query.Page - 1) * query.PageSize,
           if (query.Page - 1) * query.PageSize + query.PageSize ≥ l then l
           else (query.Page - 1) * query.PageSize + query.PageSize)
      match goSlice so.1 se.1 se.2 with
      | none => none
      | some page => some ⟨page.map (fun r => r.Obj), l, scan.2⟩

/-! ### Verification-side helpers -/

/-- The object map of one namespace bucket, empty when any level is absent. -/
def bucketOf (m : memoryStore) (gvr : GroupVersionResource) (cluster ns : String) :
    List (String × Object) :=
  match alGet? m.resourceMap gvr with
  | none => []
  | some cr =>
    match alGet? cr cluster with
    | none => []
    | some c =>
      match alGet? c.namespaces ns with
      | none => []
      | some b => b.objMap

/-- The binding for one cluster, for frame statements about `Clean`. -/
def clusterEntry (m : memoryStore) (gvr : GroupVersionResource) (cluster : String) :
    Option clusterObj :=
  (alGet? m.resourceMap gvr).bind (fun cr => alGet? cr cluster)

/-- A sequence of `OnResourceAdded` writes, stopping at a panic. -/
def writeAll (m : memoryStore) (gvr : GroupVersionResource) (cluster : String) :
    List RawObject → Option memoryStore
  | [] => some m
  | o :: os =>
    match OnResourceAdded m gvr cluster o with
    | some r => writeAll r.1 gvr cluster os
    | none => none

/-- The item window Query returns for a positive page size and a page at
least 1: `start`/`end` are the code's values clamped above to the total. -/
def pageSlice (sorted : List Object) (page pageSize l : Int) : List RawObject :=
  let s := min ((page - 1) * pageSize) l
  let e := min ((page - 1) * pageSize + pageSize) l
  ((sorted.drop s.toNat).take (e - s).toNat).map (fun r => r.Obj)

/-! ### Concrete fixtures -/

/-- A pods resource type. -/
def gvrP : GroupVersionResource := ⟨"", "v1", "pods"⟩

/-- An index configuration extracting `namespace` and `name`. -/
def confP : List (GroupVersionResource × List (String × String)) :=
  [(gvrP, [("namespace", "metadata.namespace"), ("name", "metadata.name")])]

/-- A raw object whose extraction paths yield the given namespace and name. -/
def mkObj (ns n : String) : RawObject :=
  ⟨[("metadata.namespace", ns), ("metadata.name", n)], none⟩

/-- Five objects `a`..`e` in one namespace of one cluster. -/
def m5 : memoryStore :=
  (writeAll (NewMemoryStore confP) gvrP "c1"
    [mkObj "ns1" "a", mkObj "ns1" "b", mkObj "ns1" "c", mkObj "ns1" "d", mkObj "ns1" "e"]).getD
    (NewMemoryStore confP)

/-- A match-everything query with the default sort and the given page window. -/
def qTrue (page pageSize : Int) : StoreQuery :=
  ⟨"", fun _ => (true, none), "", page, pageSize⟩

/-- The bucket of the one-object store `w4m`. -/
def w4b : resourceObj :=
  ⟨[("a", ⟨[("namespace", "ns1"), ("name", "a"), ("cluster", "c1")], mkObj "ns1" "a"⟩)]⟩

/-- The cluster shard of `w4m`. -/
def w4c : clusterObj := ⟨[("ns1", w4b)]⟩

/-- The cluster map of `w4m`. -/
def w4cr : clusterResource := [("c1", w4c)]

/-- A store holding exactly the object `a` in `ns1` of cluster `c1`. -/
def w4m : memoryStore := ⟨[(gvrP, w4cr)], confP⟩

/-- Two objects compare equal on one sort term: equal strings for a str-typed
term, equal parsed numbers for an int-typed term. -/
def termEqual (s : innerSort) (a b : Object) : Prop :=
  if s.typ = KeyTypeInt then
    ∃ v : Rat, parseDecimal (alGetD a.Index s.key "") = some v ∧
      parseDecimal (alGetD b.Index s.key "") = some v
  else alGetD a.Index s.key "" = alGetD b.Index s.key ""

/-- An object with a one-key index, for comparator checks. -/
def c5o : Object := ⟨[("name", "a")], ⟨[], none⟩⟩

/-- Two objects out of `name` order, for sort-spec checks. -/
def c6oB : Object := ⟨[("name", "b")], ⟨[], none⟩⟩

/-- Second object for sort-spec checks. -/
def c6oA : Object := ⟨[("name", "a")], ⟨[], none⟩⟩

/-- Match-everything query whose sort spec has a three-token term before an
unknown key. -/
def q7x : StoreQuery := ⟨"", fun _ => (true, none), "x y z, nosuchkey", 1, 0⟩

/-- Match-everything query whose sort spec is a single unknown key. -/
def q7e : StoreQuery := ⟨"", fun _ => (true, none), "nosuchkey", 1, 0⟩

/-- A query whose predicate matches nothing but errors, under a malformed
sort spec. -/
def q10 : StoreQuery := ⟨"", fun _ => (false, some "boom"), "a b c, priority:wat DESC", 1, 0⟩

/-- A second payload deriving the same namespace and name as
`mkObj "ns1" "a"` but with a different body. -/
def objA2 : RawObject :=
  ⟨[("metadata.namespace", "ns1"), ("metadata.name", "a"), ("spec.x", "2")], none⟩

/-- A metadata-bearing raw object with a deletion marker. -/
def objDel : RawObject := ⟨[], some ⟨true, []⟩⟩

/-! ### Association-list lemmas -/

theorem alGet?_set_self [DecidableEq κ] (m : List (κ × α)) (k : κ) (v : α) :
    alGet? (alSet m k v) k = some v := by
  induction m with
  | nil => simp [alSet, alGet?]
  | cons p ps ih =>
    by_cases h : p.1 = k <;> simp [alSet, alGet?, h, ih]

theorem alGet?_set_ne [DecidableEq κ] (m : List (κ × α)) (k k' : κ) (v : α)
    (h : k' ≠ k) : alGet? (alSet m k v) k' = alGet? m k' := by
  induction m with
  | nil => simp [alSet, alGet?, Ne.symm h]
  | cons p ps ih =>
    by_cases hp : p.1 = k
    · subst hp
      simp [alSet, alGet?, Ne.symm h]
    · simp [alSet, alGet?, hp, ih]

theorem alSet_get_eq [DecidableEq κ] (m : List (κ × α)) (k : κ) (v : α)
    (h : alGet? m k = some v) : alSet m k v = m := by
  induction m with
  | nil => simp [alGet?] at h
  | cons p ps ih =>
    by_cases hp : p.1 = k
    · simp only [alGet?, if_pos hp] at h
      have hv : p.2 = v := by injection h
      show (if p.1 = k then (k, v) :: ps else p :: alSet ps k v) = p :: ps
      rw [if_pos hp, ← hp, ← hv]
    · simp only [alGet?, if_neg hp] at h
      show (if p.1 = k then (k, v) :: ps else p :: alSet ps k v) = p :: ps
      rw [if_neg hp, ih h]

theorem alDel_get_none [DecidableEq κ] (m : List (κ × α)) (k : κ)
    (h : alGet? m k = none) : alDel m k = m := by
  induction m with
  | nil => simp [alDel]
  | cons p ps ih =>
    by_cases hp : p.1 = k
    · simp [alGet?, hp] at h
    · simp [alGet?, hp] at h
      simp [alDel, hp, ih h]

theorem alGet?_isSome_set [DecidableEq κ] (m : List (κ × α)) (k k' : κ) (v : α)
    (h : (alGet? m k).isSome) : (alGet? (alSet m k' v) k).isSome := by
  by_cases hk : k = k'
  · subst hk
    simp [alGet?_set_self]
  · rw [alGet?_set_ne m k' k v hk]
    exact h

theorem alGet?_map_const [DecidableEq κ] (l : List (κ × β)) (c : γ) (k : κ) :
    alGet? (l.map (fun kv => (kv.1, c))) k = (alGet? l k).map (fun _ => c) := by
  induction l with
  | nil => simp [alGet?]
  | cons p ps ih =>
    by_cases hp : p.1 = k <;> simp [alGet?, hp, ih]

theorem alGet?_foldl_isSome [DecidableEq κ] (f : κ × β → α) (conf : List (κ × β)) (k : κ) :
    ∀ init : List (κ × α),
      ((alGet? init k).isSome ∨ ∃ w, (k, w) ∈ conf) →
      (alGet? (conf.foldl (fun acc kv => alSet acc kv.1 (f kv)) init) k).isSome := by
  induction conf with
  | nil =>
    intro init h
    rcases h with h | ⟨w, hw⟩
    · simpa using h
    · simp at hw
  | cons p ps ih =>
    intro init h
    simp only [List.foldl_cons]
    rcases h with h | ⟨w, hw⟩
    · exact ih _ (Or.inl (alGet?_isSome_set init k p.1 (f p) h))
    · rcases List.mem_cons.mp hw with hw | hw
      · apply ih _ (Or.inl ?_)
        have hk : p.1 = k := by rw [← hw]
        rw [hk, alGet?_set_self]
        rfl
      · exact ih _ (Or.inr ⟨w, hw⟩)

/-! ### Length preservation of the model sort -/

theorem insertByE_length (f : α → α → Bool × Option String) (x : α) (l : List α) :
    (insertByE f x l).1.length = l.length + 1 := by
  induction l with
  | nil => simp [insertByE]
  | cons y ys ih =>
    simp only [insertByE]
    by_cases h : (f x y).1 <;> simp [h, ih]

theorem sortByE_length (f : α → α → Bool × Option String) (l : List α) :
    (sortByE f l).1.length = l.length := by
  induction l with
  | nil => simp [sortByE]
  | cons x xs ih =>
    simp only [sortByE]
    simp [insertByE_length, ih]

theorem sortObjs_length (objs : List Object) (s : String) :
    (sortObjs objs s).1.length = objs.length := by
  cases objs with
  | nil => rfl
  | cons f r =>
    simp only [sortObjs]
    cases h : parseSortTerms f.Index
        (goSplit (if s = "" then "cluster, namespace, name" else s) ',') <;>
      simp [h, sortByE_length]

/-! ### Derived index data depends only on the configuration -/

theorem derivedNs_congr (m₁ m₂ : memoryStore) (h : m₁.indexConf = m₂.indexConf)
    (gvr : GroupVersionResource) (cl : String) (o : RawObject) :
    derivedNs m₁ gvr cl o = derivedNs m₂ gvr cl o := by
  simp [derivedNs, confFor, h]

theorem derivedName_congr (m₁ m₂ : memoryStore) (h : m₁.indexConf = m₂.indexConf)
    (gvr : GroupVersionResource) (cl : String) (o : RawObject) :
    derivedName m₁ gvr cl o = derivedName m₂ gvr cl o := by
  simp [derivedName, confFor, h]

theorem builtFor_congr (m₁ m₂ : memoryStore) (h : m₁.indexConf = m₂.indexConf)
    (gvr : GroupVersionResource) (cl : String) (o : RawObject) :
    builtFor m₁ gvr cl o = builtFor m₂ gvr cl o := by
  simp [builtFor, confFor, h]

/-! ### Fresh-store shape -/

theorem NewMemoryStore_resourceMap_get (conf : List (GroupVersionResource × List (String × String)))
    (gvr : GroupVersionResource) :
    alGet? (NewMemoryStore conf).resourceMap gvr =
      (alGet? conf gvr).map (fun _ => ([] : clusterResource)) := by
  simp [NewMemoryStore, alGet?_map_const]

theorem bucketOf_NewMemoryStore (conf : List (GroupVersionResource × List (String × String)))
    (gvr : GroupVersionResource) (cl ns : String) :
    bucketOf (NewMemoryStore conf) gvr cl ns = [] := by
  unfold bucketOf
  rw [NewMemoryStore_resourceMap_get]
  cases alGet? conf gvr <;> simp [alGet?]

/-! ### One write step (`OnResourceAdded`) -/

theorem upsert_step (m : memoryStore) (gvr : GroupVersionResource) (cl : String) (o : RawObject)
    (h : (alGet? m.resourceMap gvr).isSome) :
    ∃ m', OnResourceAdded m gvr cl o = some (m', none) ∧
      m'.indexConf = m.indexConf ∧
      (alGet? m'.resourceMap gvr).isSome ∧
      bucketOf m' gvr cl (derivedNs m gvr cl o) =
        alSet (bucketOf m gvr cl (derivedNs m gvr cl o)) (derivedName m gvr cl o)
          (builtFor m gvr cl o) ∧
      Get m' gvr cl (derivedNs m gvr cl o) (derivedName m gvr cl o) =
        some (builtFor m gvr cl o).Obj := by
  simp only [derivedNs, derivedName, builtFor]
  obtain ⟨cr, hcr⟩ := Option.isSome_iff_exists.mp h
  cases hc : alGet? cr cl with
  | none =>
    simp only [OnResourceAdded, initResourceNamespace, setObj, Get, bucketOf, hcr, hc,
      alGet?_set_self, alGet?]
    refine ⟨_, rfl, rfl, ?_, ?_, ?_⟩
    · simp [alGet?_set_self]
    · simp [alGet?_set_self, alGet?, alSet]
    · simp [alGet?_set_self, alGet?, alSet]
  | some c =>
    cases hns : alGet? c.namespaces (buildResourceWithIndex (confFor m gvr) cl o).1 with
    | none =>
      simp only [OnResourceAdded, initResourceNamespace, setObj, Get, bucketOf, hcr, hc, hns,
        alGet?_set_self, alGet?]
      refine ⟨_, rfl, rfl, ?_, ?_, ?_⟩
      · simp [alGet?_set_self]
      · simp [alGet?_set_self, alGet?, alSet]
      · simp [alGet?_set_self, alGet?, alSet]
    | some b =>
      simp only [OnResourceAdded, initResourceNamespace, setObj, Get, bucketOf, hcr, hc, hns,
        alGet?_set_self, alGet?]
      refine ⟨_, rfl, rfl, ?_, ?_, ?_⟩
      · simp [alGet?_set_self]
      · simp [alGet?_set_self, alGet?, alSet]
      · simp [alGet?_set_self, alGet?, alSet]

/-! ### One delete step (`OnResourceDeleted`) -/

theorem delete_step (m : memoryStore) (gvr : GroupVersionResource) (cl : String) (o : RawObject)
    (h : (alGet? m.resourceMap gvr).isSome) :
    ∃ m', OnResourceDeleted m gvr cl o = some (m', none) ∧
      m'.indexConf = m.indexConf ∧
      bucketOf m' gvr cl (derivedNs m gvr cl o) =
        alDel (bucketOf m gvr cl (derivedNs m gvr cl o)) (derivedName m gvr cl o) := by
  simp only [derivedNs, derivedName]
  obtain ⟨cr, hcr⟩ := Option.isSome_iff_exists.mp h
  cases hc : alGet? cr cl with
  | none =>
    simp only [OnResourceDeleted, initResourceNamespace, delObj, bucketOf, hcr, hc,
      alGet?_set_self, alGet?]
    refine ⟨_, rfl, rfl, ?_⟩
    simp [alGet?_set_self, alGet?, alSet, alDel]
  | some c =>
    cases hns : alGet? c.namespaces (buildResourceWithIndex (confFor m gvr) cl o).1 with
    | none =>
      simp only [OnResourceDeleted, initResourceNamespace, delObj, bucketOf, hcr, hc, hns,
        alGet?_set_self, alGet?]
      refine ⟨_, rfl, rfl, ?_⟩
      simp [alGet?_set_self, alGet?, alSet, alDel]
    | some b =>
      simp only [OnResourceDeleted, initResourceNamespace, delObj, bucketOf, hcr, hc, hns,
        alGet?_set_self, alGet?]
      refine ⟨_, rfl, rfl, ?_⟩
      simp [alGet?_set_self, alGet?, alSet, alDel]

theorem delete_noop (m : memoryStore) (gvr : GroupVersionResource) (cl : String) (o : RawObject)
    (cr : clusterResource) (c : clusterObj) (b : resourceObj)
    (hcr : alGet? m.resourceMap gvr = some cr)
    (hc : alGet? cr cl = some c)
    (hns : alGet? c.namespaces (derivedNs m gvr cl o) = some b)
    (hnm : alGet? b.objMap (derivedName m gvr cl o) = none) :
    OnResourceDeleted m gvr cl o = some (m, none) := by
  simp only [derivedNs] at hns
  simp only [derivedName] at hnm
  simp only [OnResourceDeleted, initResourceNamespace, delObj, hcr, hc, hns]
  rw [alDel_get_none _ _ hnm]
  rw [show (⟨b.objMap⟩ : resourceObj) = b from rfl]
  rw [alSet_get_eq _ _ _ hns]
  rw [show (⟨c.namespaces⟩ : clusterObj) = c from rfl]
  rw [alSet_get_eq _ _ _ hc]
  rw [alSet_get_eq _ _ _ hcr]

/-! ### Repeated upserts to one name -/

theorem writeAll_single_name (gvr : GroupVersionResource) (cl n0 nm0 : String)
    (ic : List (GroupVersionResource × List (String × String))) (xl : RawObject) :
    ∀ (os : List RawObject) (m : memoryStore),
      m.indexConf = ic →
      (alGet? m.resourceMap gvr).isSome →
      (bucketOf m gvr cl n0 = [] ∨ ∃ o₀, bucketOf m gvr cl n0 = [(nm0, o₀)]) →
      (∀ x ∈ os ++ [xl], derivedNs m gvr cl x = n0 ∧ derivedName m gvr cl x = nm0) →
      ∃ m', writeAll m gvr cl (os ++ [xl]) = some m' ∧
        m'.indexConf = ic ∧
        bucketOf m' gvr cl n0 = [(nm0, builtFor m gvr cl xl)] ∧
        Get m' gvr cl n0 nm0 = some (builtFor m gvr cl xl).Obj := by
  intro os
  induction os with
  | nil =>
    intro m hic hsome hb hall
    obtain ⟨hxn, hxm⟩ := hall xl (by simp)
    obtain ⟨m', hadd, hic', hsome', hbuck, hget⟩ := upsert_step m gvr cl xl hsome
    rw [hxn, hxm] at hbuck hget
    refine ⟨m', ?_, ?_, ?_, ?_⟩
    · simp [writeAll, hadd]
    · rw [hic', hic]
    · rw [hbuck]
      rcases hb with hb | ⟨o₀, hb⟩ <;> rw [hb] <;> simp [alSet]
    · exact hget
  | cons x os ih =>
    intro m hic hsome hb hall
    obtain ⟨hxn, hxm⟩ := hall x (by simp)
    obtain ⟨m1, hadd, hic', hsome', hbuck, hget⟩ := upsert_step m gvr cl x hsome
    rw [hxn, hxm] at hbuck
    have hb1 : bucketOf m1 gvr cl n0 = [(nm0, builtFor m gvr cl x)] := by
      rw [hbuck]
      rcases hb with hb | ⟨o₀, hb⟩ <;> rw [hb] <;> simp [alSet]
    have hic1 : m1.indexConf = ic := by rw [hic', hic]
    have hall1 : ∀ y ∈ os ++ [xl], derivedNs m1 gvr cl y = n0 ∧ derivedName m1 gvr cl y = nm0 := by
      intro y hy
      constructor
      · rw [derivedNs_congr m1 m hic']
        exact (hall y (List.mem_cons_of_mem x hy)).1
      · rw [derivedName_congr m1 m hic']
        exact (hall y (List.mem_cons_of_mem x hy)).2
    obtain ⟨m', hw, hic'', hbuck', hget'⟩ := ih m1 hic1 hsome' (Or.inr ⟨_, hb1⟩) hall1
    refine ⟨m', ?_, hic'', ?_, ?_⟩
    · simp [writeAll, hadd, hw]
    · rw [hbuck', builtFor_congr m1 m hic']
    · rw [hget', builtFor_congr m1 m hic']

/-! ### Index shape of a built object -/

theorem built_index_cluster (conf : List (String × String)) (cluster : String) (o : RawObject) :
    alGet? (buildResourceWithIndex conf cluster o).2.2.Index "cluster" = some cluster := by
  cases ho : o.meta with
  | none => simp [buildResourceWithIndex, ho, alGet?_set_self]
  | some mo =>
    simp only [buildResourceWithIndex, ho]
    rw [alGet?_set_ne _ _ _ _ (by decide : ("cluster" : String) ≠ "is_deleted")]
    exact alGet?_set_self _ _ _

theorem built_index_conf_key (conf : List (String × String)) (cluster : String) (o : RawObject)
    (k : String) (hk : ∃ w, (k, w) ∈ conf) :
    (alGet? (buildResourceWithIndex conf cluster o).2.2.Index k).isSome := by
  cases ho : o.meta with
  | none =>
    simp only [buildResourceWithIndex, ho]
    apply alGet?_isSome_set
    exact alGet?_foldl_isSome _ conf k [] (Or.inr hk)
  | some mo =>
    simp only [buildResourceWithIndex, ho]
    apply alGet?_isSome_set
    apply alGet?_isSome_set
    exact alGet?_foldl_isSome _ conf k [] (Or.inr hk)

theorem built_index_is_deleted (conf : List (String × String)) (cluster : String) (o : RawObject)
    (mo : ObjectMeta) (ho : o.meta = some mo) :
    alGet? (buildResourceWithIndex conf cluster o).2.2.Index "is_deleted" =
      some (if mo.deletionTimestamp then "true" else "false") := by
  simp only [buildResourceWithIndex, ho]
  exact alGet?_set_self _ _ _

/-! ### Comparator fall-through -/

theorem sortLessE_eq_head (a b : Object) (s : innerSort) (rest : List innerSort)
    (h : termEqual s a b) : sortLessE (s :: rest) a b = sortLessE rest a b := by
  by_cases ht : s.typ = KeyTypeInt
  · simp only [termEqual, if_pos ht] at h
    obtain ⟨v, h1, h2⟩ := h
    simp [sortLessE, ht, h1, h2]
  · simp only [termEqual, if_neg ht] at h
    simp [sortLessE, ht, h]

theorem sortLessE_all_eq (a b : Object) (sorts : List innerSort)
    (h : ∀ s ∈ sorts, termEqual s a b) : sortLessE sorts a b = (true, none) := by
  induction sorts with
  | nil => rfl
  | cons s rest ih =>
    rw [sortLessE_eq_head a b s rest (h s (by simp))]
    exact ih (fun t ht => h t (List.mem_cons_of_mem s ht))

/-! ### Term-parsing outcomes -/

theorem parseSortTerms_skip (ckm : List (String × String)) (t : String) (ts : List String)
    (h1 : goTrim t ≠ "") (h2 : 2 < (goSplit (goTrim t) ' ').length) :
    parseSortTerms ckm (t :: ts) = ParseOutcome.skip := by
  have h3 : ¬ (goSplit (goTrim t) ' ').length = 1 := by omega
  simp only [parseSortTerms, parseSpace, if_neg h1, if_neg h3, if_pos h2]

theorem parseSortTerms_unknown_key (ckm : List (String × String)) (key : String) (ts : List String)
    (h0 : alGet? ckm key = none) (h1 : goTrim key = key) (h2 : key ≠ "")
    (h3 : (goSplit key ' ').length = 1) (h4 : (goSplit key ':').length = 1) :
    parseSortTerms ckm (key :: ts) = ParseOutcome.err ("unexpected sort key: " ++ key) := by
  simp only [parseSortTerms, parseSpace, parseType, h1, if_neg h2, if_pos h3, if_pos h4, h0]
  simp

/-! ### Query reductions -/

theorem Query_sort_error (m : memoryStore) (gvr : GroupVersionResource) (q : StoreQuery)
    (os : List Object) (e : String)
    (hs : sortObjs (matchScan q (candidateObjs m gvr q.Namespace)).1 q.sort = (os, some e)) :
    Query m gvr q = some ⟨[], 0, some e⟩ := by
  by_cases hl : ((matchScan q (candidateObjs m gvr q.Namespace)).1.length : Int) = 0
  · exfalso
    have hnil : (matchScan q (candidateObjs m gvr q.Namespace)).1 = [] :=
      List.length_eq_zero.mp (by exact_mod_cast hl)
    rw [hnil] at hs
    simp [sortObjs] at hs
  · simp only [Query]
    rw [if_neg hl, hs]

theorem Query_empty_filter (m : memoryStore) (gvr : GroupVersionResource) (q : StoreQuery)
    (h : (matchScan q (candidateObjs m gvr q.Namespace)).1 = []) :
    Query m gvr q = some ⟨[], 0, (matchScan q (candidateObjs m gvr q.Namespace)).2⟩ := by
  simp only [Query, h]
  simp

/-- The clamp `if x ≥ l then l else x` of the pagination code is an upper
clamp to `l`. -/
theorem if_ge_min (x l : Int) : (if x ≥ l then l else x) = min x l := by
  rw [min_def]
  split_ifs <;> omega

/-- Claim C2 (amended): with no predicate and no sort error, `pageSize == 0`
returns the entire sorted filtered set (start 0, end total); for
`pageSize > 0` and `page ≥ 1`, the returned page is the slice of the sorted
filtered set from `(page-1)*pageSize` to `(page-1)*pageSize + pageSize`, each
clamped **above** to the total (for `page ≥ 1` they are already nonnegative,
but the code has no lower clamp: a `page ≤ 0` makes `start` negative and the
slice expression panics, see the counterexample); a page placing `start` at or
beyond the total yields empty items and no error, with `Total` still the
filtered count. -/
theorem C2_pagination (m : memoryStore) (gvr : GroupVersionResource) (q : StoreQuery)
    (hscan : (matchScan q (candidateObjs m gvr q.Namespace)).2 = none)
    (hsort : (sortObjs (matchScan q (candidateObjs m gvr q.Namespace)).1 q.sort).2 = none) :
    (q.PageSize = 0 →
      Query m gvr q =
        some ⟨((sortObjs (matchScan q (candidateObjs m gvr q.Namespace)).1 q.sort).1).map
            (fun r => r.Obj),
          ((matchScan q (candidateObjs m gvr q.Namespace)).1.length : Int), none⟩) ∧
    (0 < q.PageSize → 1 ≤ q.Page →
      Query m gvr q =
        some ⟨pageSlice (sortObjs (matchScan q (candidateObjs m gvr q.Namespace)).1 q.sort).1
            q.Page q.PageSize ((matchScan q (candidateObjs m gvr q.Namespace)).1.length : Int),
          ((matchScan q (candidateObjs m gvr q.Namespace)).1.length : Int), none⟩) ∧
    (0 < q.PageSize → 1 ≤ q.Page →
      ((matchScan q (candidateObjs m gvr q.Namespace)).1.length : Int) ≤
        (q.Page - 1) * q.PageSize →
      Query m gvr q =
        some ⟨[], ((matchScan q (candidateObjs m gvr q.Namespace)).1.length : Int), none⟩) := by
  have hlen : (sortObjs (matchScan q (candidateObjs m gvr q.Namespace)).1 q.sort).1.length
      = (matchScan q (candidateObjs m gvr q.Namespace)).1.length := sortObjs_length _ _
  have hlen' : ((sortObjs (matchScan q (candidateObjs m gvr q.Namespace)).1 q.sort).1.length : Int)
      = ((matchScan q (candidateObjs m gvr q.Namespace)).1.length : Int) := by
    exact_mod_cast hlen
  have part2 : 0 < q.PageSize → 1 ≤ q.Page →
      Query m gvr q =
        some ⟨pageSlice (sortObjs (matchScan q (candidateObjs m gvr q.Namespace)).1 q.sort).1
            q.Page q.PageSize ((matchScan q (candidateObjs m gvr q.Namespace)).1.length : Int),
          ((matchScan q (candidateObjs m gvr q.Namespace)).1.length : Int), none⟩ := by
    intro hps hpg
    by_cases hl : ((matchScan q (candidateObjs m gvr q.Namespace)).1.length : Int) = 0
    · have hnil : (matchScan q (candidateObjs m gvr q.Namespace)).1 = [] :=
        List.length_eq_zero.mp (Nat.cast_eq_zero.mp hl)
      rw [Query_empty_filter m gvr q hnil, hscan, hnil]
      simp [sortObjs, pageSlice]
    · have hs0 : 0 ≤ (q.Page - 1) * q.PageSize := mul_nonneg (by omega) (by omega)
      have hl0 : (0 : Int) ≤ ((matchScan q (candidateObjs m gvr q.Namespace)).1.length : Int) :=
        Int.natCast_nonneg _
      have hcond : (0 : Int) ≤ min ((q.Page - 1) * q.PageSize)
            ((matchScan q (candidateObjs m gvr q.Namespace)).1.length : Int) ∧
          min ((q.Page - 1) * q.PageSize)
            ((matchScan q (candidateObjs m gvr q.Namespace)).1.length : Int) ≤
          min ((q.Page - 1) * q.PageSize + q.PageSize)
            ((matchScan q (candidateObjs m gvr q.Namespace)).1.length : Int) ∧
          min ((q.Page - 1) * q.PageSize + q.PageSize)
            ((matchScan q (candidateObjs m gvr q.Namespace)).1.length : Int) ≤
          ((sortObjs (matchScan q (candidateObjs m gvr q.Namespace)).1 q.sort).1.length : Int) := by
        refine ⟨le_min hs0 hl0, min_le_min (by omega) (le_refl _), ?_⟩
        rw [hlen']
        exact min_le_right _ _
      simp only [Query]
      rw [if_neg hl, hsort, if_neg (by omega : ¬ q.PageSize = 0), if_ge_min, if_ge_min]
      simp only [goSlice]
      rw [if_pos hcond, hscan]
      rfl
  refine ⟨?_, part2, ?_⟩
  · intro hps
    by_cases hl : ((matchScan q (candidateObjs m gvr q.Namespace)).1.length : Int) = 0
    · have hnil : (matchScan q (candidateObjs m gvr q.Namespace)).1 = [] :=
        List.length_eq_zero.mp (Nat.cast_eq_zero.mp hl)
      rw [Query_empty_filter m gvr q hnil, hscan, hnil]
      simp [sortObjs]
    · have hcond : (0 : Int) ≤ (0 : Int) ∧
          (0 : Int) ≤ ((matchScan q (candidateObjs m gvr q.Namespace)).1.length : Int) ∧
          ((matchScan q (candidateObjs m gvr q.Namespace)).1.length : Int) ≤
            ((sortObjs (matchScan q (candidateObjs m gvr q.Namespace)).1 q.sort).1.length : Int) := by
        refine ⟨le_refl _, Int.natCast_nonneg _, ?_⟩
        rw [hlen']
      simp only [Query]
      rw [if_neg hl, hsort, if_pos hps]
      simp only [goSlice]
      rw [if_pos hcond, hscan]
      simp [hlen]
  · intro hps hpg hbig
    rw [part2 hps hpg]
    have h1 : min ((q.Page - 1) * q.PageSize)
        ((matchScan q (candidateObjs m gvr q.Namespace)).1.length : Int) =
        ((matchScan q (candidateObjs m gvr q.Namespace)).1.length : Int) := min_eq_right hbig
    have h2 : min ((q.Page - 1) * q.PageSize + q.PageSize)
        ((matchScan q (candidateObjs m gvr q.Namespace)).1.length : Int) =
        ((matchScan q (candidateObjs m gvr q.Namespace)).1.length : Int) :=
      min_eq_right (by omega)
    simp [pageSlice, h1, h2]

/-- A skip outcome of term parsing makes `sortObjs` return its input
unchanged with a nil error. -/
theorem sortObjs_skip (objs : List Object) (first : Object) (rest : List Object) (s : String)
    (ho : objs = first :: rest) (hs : s ≠ "")
    (hskip : parseSortTerms first.Index (goSplit s ',') = ParseOutcome.skip) :
    sortObjs objs s = (objs, none) := by
  subst ho
  simp only [sortObjs]
  rw [if_neg hs, hskip]

/-! ### Claim theorems -/

/-- Claim C1 (amended): the Index of every object built and stored by
`OnResourceAdded`/`OnResourceModified` contains the key `cluster` (bound to
the writing cluster) and one entry per configured extraction key; `is_deleted`
(value "true"/"false") is present when the raw object carries object
metadata; `namespace` and `name` appear only as configured extraction keys,
not unconditionally (see the counterexample: with them unconfigured and a
metadata-less payload the stored Index holds only `cluster`). -/
theorem C1_index_keys :
    (∀ (conf : List (String × String)) (cluster : String) (o : RawObject),
      alGet? (buildResourceWithIndex conf cluster o).2.2.Index "cluster" = some cluster) ∧
    (∀ (conf : List (String × String)) (cluster : String) (o : RawObject) (k : String),
      (∃ w, (k, w) ∈ conf) →
      (alGet? (buildResourceWithIndex conf cluster o).2.2.Index k).isSome) ∧
    (∀ (conf : List (String × String)) (cluster : String) (o : RawObject) (mo : ObjectMeta),
      o.meta = some mo →
      alGet? (buildResourceWithIndex conf cluster o).2.2.Index "is_deleted" =
        some (if mo.deletionTimestamp then "true" else "false")) ∧
    (∀ (m : memoryStore) (gvr : GroupVersionResource) (cluster : String) (o : RawObject),
      (alGet? m.resourceMap gvr).isSome →
      ∃ m', OnResourceAdded m gvr cluster o = some (m', none) ∧
        alGet? (bucketOf m' gvr cluster (derivedNs m gvr cluster o))
          (derivedName m gvr cluster o) = some (builtFor m gvr cluster o)) := by
  refine ⟨built_index_cluster, built_index_conf_key, built_index_is_deleted, ?_⟩
  intro m gvr cluster o h
  obtain ⟨m', hadd, _, _, hbuck, _⟩ := upsert_step m gvr cluster o h
  refine ⟨m', hadd, ?_⟩
  rw [hbuck]
  exact alGet?_set_self _ _ _

theorem C1_index_keys_witness :
    (alGet? (buildResourceWithIndex [("namespace", "metadata.namespace"),
        ("name", "metadata.name")] "c1" (mkObj "ns1" "a")).2.2.Index "namespace").isSome ∧
    alGet? (buildResourceWithIndex [] "c1" objDel).2.2.Index "is_deleted" = some "true" ∧
    (∃ m', OnResourceAdded (NewMemoryStore confP) gvrP "c1" (mkObj "ns1" "a") = some (m', none) ∧
      alGet? (bucketOf m' gvrP "c1" (derivedNs (NewMemoryStore confP) gvrP "c1" (mkObj "ns1" "a")))
        (derivedName (NewMemoryStore confP) gvrP "c1" (mkObj "ns1" "a")) =
        some (builtFor (NewMemoryStore confP) gvrP "c1" (mkObj "ns1" "a"))) :=
  ⟨C1_index_keys.2.1 [("namespace", "metadata.namespace"), ("name", "metadata.name")] "c1"
      (mkObj "ns1" "a") "namespace" ⟨"metadata.namespace", by decide⟩,
   by
    have h := C1_index_keys.2.2.1 [] "c1" objDel ⟨true, []⟩ rfl
    simpa using h,
   C1_index_keys.2.2.2 (NewMemoryStore confP) gvrP "c1" (mkObj "ns1" "a") (by decide)⟩

/-- Claim C1 counterexample: with no configured extraction keys and a payload
without object metadata, the object is stored (under empty namespace and
name) with an Index containing only `cluster` — no `namespace`, `name` or
`is_deleted` keys — refuting the claim that those built-ins are always
present. -/
theorem C1_counterexample :
    (OnResourceAdded (NewMemoryStore [(gvrP, [])]) gvrP "c1" ⟨[], none⟩).map
      (fun p => (bucketOf p.1 gvrP "c1" "").map
        (fun e => (e.1, alGet? e.2.Index "namespace", alGet? e.2.Index "name",
          alGet? e.2.Index "is_deleted", alGet? e.2.Index "cluster")))
    = some [("", none, none, none, some "c1")] := by rfl

/-- Claim C2 counterexample: pageSize 2 with page 0 over 5 matching objects —
the claimed lower clamp of `start` to 0 does not exist: `start` is -2 and the
slice expression is out of bounds (a runtime panic, modelled as `none`),
instead of the claimed clamped result with empty items and no error. -/
theorem C2_counterexample : Query m5 gvrP (qTrue 0 2) = none := by decide

theorem C2_pagination_witness :
    Query m5 gvrP (qTrue 1 2) =
      some ⟨pageSlice
          (sortObjs (matchScan (qTrue 1 2) (candidateObjs m5 gvrP (qTrue 1 2).Namespace)).1
            (qTrue 1 2).sort).1
          (qTrue 1 2).Page (qTrue 1 2).PageSize
          ((matchScan (qTrue 1 2) (candidateObjs m5 gvrP (qTrue 1 2).Namespace)).1.length : Int),
        ((matchScan (qTrue 1 2) (candidateObjs m5 gvrP (qTrue 1 2).Namespace)).1.length : Int),
        none⟩ :=
  (C2_pagination m5 gvrP (qTrue 1 2) (by decide) (by decide)).2.1 (by decide) (by decide)

/-- Claim C3 (amended): over 5 matching objects with pageSize 2, page 1 gives
Total 5 and 2 items; page 3 gives Total 5 and ONE item — the slice [4:5] of
the 5-element sorted list — not empty items as claimed (see counterexample);
page 4 and beyond give empty items with Total still 5. -/
theorem C3_page_counts :
    (Query m5 gvrP (qTrue 1 2)).map (fun r => (r.Items.length, r.Total, r.Error)) =
      some (2, 5, none) ∧
    (Query m5 gvrP (qTrue 3 2)).map (fun r => (r.Items.length, r.Total, r.Error)) =
      some (1, 5, none) ∧
    (Query m5 gvrP (qTrue 4 2)).map (fun r => (r.Items.length, r.Total, r.Error)) =
      some (0, 5, none) :=
  ⟨by decide, by decide, by decide⟩

/-- Claim C3 counterexample: with 5 matching objects and pageSize 2, page 3
returns one item (Total 5), not the empty item list the claim states. -/
theorem C3_counterexample :
    (Query m5 gvrP (qTrue 3 2)).map (fun r => (r.Items.length, r.Total)) = some (1, 5) ∧
    ¬ (Query m5 gvrP (qTrue 3 2)).map (fun r => r.Items.length) = some 0 := by
  exact ⟨by decide, by decide⟩

/-- Claim C4 (amended): for a resource type present in the store's resource
map, when the cluster shard and namespace bucket exist and the object's
derived name is absent from the bucket, `OnResourceDeleted` returns the store
unchanged with no error; in general it returns no error and only ever removes
(never stores) an object, but when the shard or bucket is missing it creates
them empty as a side effect (see counterexample), and an unconfigured
resource type panics rather than no-ops. -/
theorem C4_delete_missing (m : memoryStore) (gvr : GroupVersionResource) (cl : String)
    (o : RawObject) :
    (∀ (cr : clusterResource) (c : clusterObj) (b : resourceObj),
      alGet? m.resourceMap gvr = some cr →
      alGet? cr cl = some c →
      alGet? c.namespaces (derivedNs m gvr cl o) = some b →
      alGet? b.objMap (derivedName m gvr cl o) = none →
      OnResourceDeleted m gvr cl o = some (m, none)) ∧
    ((alGet? m.resourceMap gvr).isSome →
      ∃ m', OnResourceDeleted m gvr cl o = some (m', none) ∧
        m'.indexConf = m.indexConf ∧
        bucketOf m' gvr cl (derivedNs m gvr cl o) =
          alDel (bucketOf m gvr cl (derivedNs m gvr cl o)) (derivedName m gvr cl o)) :=
  ⟨fun cr c b hcr hc hns hnm => delete_noop m gvr cl o cr c b hcr hc hns hnm,
   fun h => delete_step m gvr cl o h⟩

theorem C4_delete_missing_witness :
    OnResourceDeleted w4m gvrP "c1" (mkObj "ns1" "zz") = some (w4m, none) :=
  (C4_delete_missing w4m gvrP "c1" (mkObj "ns1" "zz")).1 w4cr w4c w4b
    (by decide) (by decide) (by decide) (by decide)

/-- Claim C4 counterexample: deleting a never-stored object from a fresh
store returns no error but is NOT a no-op on the store state — the empty
cluster shard and namespace bucket are created by the delete. -/
theorem C4_counterexample :
    ¬ OnResourceDeleted (NewMemoryStore confP) gvrP "c1" (mkObj "ns1" "a") =
        some (NewMemoryStore confP, none) ∧
    (OnResourceDeleted (NewMemoryStore confP) gvrP "c1" (mkObj "ns1" "a")).map (fun p => p.2) =
      some none := by
  exact ⟨by decide, by decide⟩

/-- Claim C5 (amended): the multi-key comparator applies sort terms in listed
order, falling through to the next term exactly when the two values compare
equal on a key; but when the objects compare equal on EVERY term the
comparator returns TRUE ("less"), not false as claimed (see counterexample):
the `sort.Slice` callback ends in `return true`, which also violates the
strict-weak-order contract `sort.Slice` expects. -/
theorem C5_comparator (a b : Object) :
    (∀ (s : innerSort) (rest : List innerSort),
      termEqual s a b → sortLessE (s :: rest) a b = sortLessE rest a b) ∧
    (∀ sorts : List innerSort,
      (∀ s ∈ sorts, termEqual s a b) → sortLessE sorts a b = (true, none)) :=
  ⟨fun s rest h => sortLessE_eq_head a b s rest h,
   fun sorts h => sortLessE_all_eq a b sorts h⟩

theorem C5_comparator_witness :
    sortLessE [⟨"name", KeyTypeStr, false⟩] c6oA c6oA = (true, none) :=
  (C5_comparator c6oA c6oA).2 [⟨"name", KeyTypeStr, false⟩]
    (by
      intro s hs
      simp only [List.mem_singleton] at hs
      subst hs
      unfold termEqual
      rw [if_neg (by decide)])

/-- Claim C5 counterexample: on a pair of objects equal on every sort term the
comparator reports TRUE for "less than", not false as the claim states. -/
theorem C5_counterexample :
    (sortLessE [⟨"name", KeyTypeStr, false⟩] c5o c5o).1 = true ∧
    ¬ (sortLessE [⟨"name", KeyTypeStr, false⟩] c5o c5o).1 = false := by
  exact ⟨by decide, by decide⟩

/-- Claim C6 (amended): a sort term with more than two space-separated tokens
makes the whole sort silently abort with a nil error: `sortObjs` returns the
candidate list UNCHANGED, so the remaining well-formed terms are NOT applied
(the claim's "remaining sort terms are still applied" is refuted by the
counterexample, where the later `name` term is ignored). -/
theorem C6_malformed_term :
    (∀ objs : List Object, sortObjs objs "x y z, name DESC" = (objs, none)) ∧
    (∀ (ckm : List (String × String)) (t : String) (ts : List String),
      goTrim t ≠ "" → 2 < (goSplit (goTrim t) ' ').length →
      parseSortTerms ckm (t :: ts) = ParseOutcome.skip) ∧
    (∀ (objs : List Object) (first : Object) (rest : List Object) (s : String),
      objs = first :: rest → s ≠ "" →
      parseSortTerms first.Index (goSplit s ',') = ParseOutcome.skip →
      sortObjs objs s = (objs, none)) := by
  refine ⟨?_, parseSortTerms_skip, sortObjs_skip⟩
  intro objs
  cases objs with
  | nil => rfl
  | cons f r =>
    exact sortObjs_skip (f :: r) f r "x y z, name DESC" rfl (by decide) (by rfl)

theorem C6_malformed_term_witness :
    parseSortTerms [("name", "a")] ["p q r", "name"] = ParseOutcome.skip ∧
    sortObjs [c6oB, c6oA] "x y z, name DESC" = ([c6oB, c6oA], none) :=
  ⟨C6_malformed_term.2.1 [("name", "a")] "p q r" ["name"] (by decide) (by decide),
   C6_malformed_term.1 [c6oB, c6oA]⟩

/-- Claim C6 counterexample: under the sort spec "x y z, name", two objects
out of `name` order come back unsorted with no error — the later `name` term
was not applied, though by itself it would have reordered them. -/
theorem C6_counterexample :
    sortObjs [c6oB, c6oA] "x y z, name" = ([c6oB, c6oA], none) ∧
    ¬ [c6oB, c6oA] = [c6oA, c6oB] ∧
    (sortObjs [c6oB, c6oA] "name").1 = [c6oA, c6oB] := by
  exact ⟨by decide, by decide, by decide⟩

/-- Claim C7 (amended): when the filtered candidate set is nonempty, any
error from `sortObjs` — in particular "unexpected sort key" for a leading
term whose key is absent from the first candidate's Index — becomes the query
Error with empty Items and Total 0; but, contrary to the claim, an absent-key
term does NOT guarantee an error: an earlier term with more than two
space-separated tokens silently skips the whole sort and the query delivers
items with no error (see counterexample). -/
theorem C7_unknown_sort_key :
    (∀ (m : memoryStore) (gvr : GroupVersionResource) (q : StoreQuery)
      (os : List Object) (e : String),
      sortObjs (matchScan q (candidateObjs m gvr q.Namespace)).1 q.sort = (os, some e) →
      Query m gvr q = some ⟨[], 0, some e⟩) ∧
    (∀ (ckm : List (String × String)) (key : String) (ts : List String),
      alGet? ckm key = none → goTrim key = key → key ≠ "" →
      (goSplit key ' ').length = 1 → (goSplit key ':').length = 1 →
      parseSortTerms ckm (key :: ts) = ParseOutcome.err ("unexpected sort key: " ++ key)) :=
  ⟨fun m gvr q os e hs => Query_sort_error m gvr q os e hs,
   fun ckm key ts h0 h1 h2 h3 h4 => parseSortTerms_unknown_key ckm key ts h0 h1 h2 h3 h4⟩

theorem C7_unknown_sort_key_witness :
    Query w4m gvrP q7e = some ⟨[], 0, some "unexpected sort key: nosuchkey"⟩ ∧
    parseSortTerms [("cluster", "c1")] ["zzz"] =
      ParseOutcome.err ("unexpected sort key: " ++ "zzz") :=
  ⟨(C7_unknown_sort_key.1 w4m gvrP q7e
      (matchScan q7e (candidateObjs w4m gvrP q7e.Namespace)).1
      "unexpected sort key: nosuchkey" (by decide)),
   C7_unknown_sort_key.2 [("cluster", "c1")] "zzz" []
     (by decide) (by decide) (by decide) (by decide) (by decide)⟩

/-- Claim C7 counterexample: sort spec "x y z, nosuchkey" over a nonempty
match set — the second term's key is absent from the index, yet Query returns
NO error and delivers the item, because the three-token first term silently
skipped the whole sort. -/
theorem C7_counterexample :
    (Query w4m gvrP q7x).map (fun r => (r.Error, r.Items.length, r.Total)) =
      some (none, 1, 1) := by decide

/-- Claim C8: `OnResourceAdded` and `OnResourceModified` are the same
function; a write for a resource type present in the resource map stores
exactly the built object under its derived namespace and name (the bucket is
the old bucket with that one name upserted) and a Get of that tuple returns
its payload; and any nonempty sequence of writes deriving the same
(namespace, name) against a fresh store leaves exactly one entry in the
bucket, holding the payload of the LAST write. -/
theorem C8_upsert_last_write_wins :
    (∀ (m : memoryStore) (gvr : GroupVersionResource) (cl : String) (o : RawObject),
      OnResourceAdded m gvr cl o = OnResourceModified m gvr cl o) ∧
    (∀ (m : memoryStore) (gvr : GroupVersionResource) (cl : String) (o : RawObject),
      (alGet? m.resourceMap gvr).isSome →
      ∃ m', OnResourceAdded m gvr cl o = some (m', none) ∧
        Get m' gvr cl (derivedNs m gvr cl o) (derivedName m gvr cl o) =
          some (builtFor m gvr cl o).Obj ∧
        bucketOf m' gvr cl (derivedNs m gvr cl o) =
          alSet (bucketOf m gvr cl (derivedNs m gvr cl o)) (derivedName m gvr cl o)
            (builtFor m gvr cl o)) ∧
    (∀ (conf : List (GroupVersionResource × List (String × String)))
      (gvr : GroupVersionResource) (cl n0 nm0 : String) (os : List RawObject) (xl : RawObject),
      (alGet? conf gvr).isSome →
      (∀ x ∈ os ++ [xl], derivedNs (NewMemoryStore conf) gvr cl x = n0 ∧
        derivedName (NewMemoryStore conf) gvr cl x = nm0) →
      ∃ m', writeAll (NewMemoryStore conf) gvr cl (os ++ [xl]) = some m' ∧
        bucketOf m' gvr cl n0 = [(nm0, builtFor (NewMemoryStore conf) gvr cl xl)] ∧
        Get m' gvr cl n0 nm0 = some (builtFor (NewMemoryStore conf) gvr cl xl).Obj) := by
  refine ⟨fun m gvr cl o => rfl, ?_, ?_⟩
  · intro m gvr cl o h
    obtain ⟨m', hadd, _, _, hbuck, hget⟩ := upsert_step m gvr cl o h
    exact ⟨m', hadd, hget, hbuck⟩
  · intro conf gvr cl n0 nm0 os xl hconf hall
    have hsome : (alGet? (NewMemoryStore conf).resourceMap gvr).isSome := by
      rw [NewMemoryStore_resourceMap_get]
      cases h : alGet? conf gvr
      · rw [h] at hconf
        simp at hconf
      · simp
    obtain ⟨m', hw, _, hbuck, hget⟩ := writeAll_single_name gvr cl n0 nm0 conf xl os
      (NewMemoryStore conf) rfl hsome (Or.inl (bucketOf_NewMemoryStore conf gvr cl n0)) hall
    exact ⟨m', hw, hbuck, hget⟩

theorem C8_upsert_last_write_wins_witness :
    ∃ m', writeAll (NewMemoryStore confP) gvrP "c1" ([mkObj "ns1" "a"] ++ [objA2]) = some m' ∧
      bucketOf m' gvrP "c1" "ns1" = [("a", builtFor (NewMemoryStore confP) gvrP "c1" objA2)] ∧
      Get m' gvrP "c1" "ns1" "a" = some (builtFor (NewMemoryStore confP) gvrP "c1" objA2).Obj :=
  C8_upsert_last_write_wins.2.2 confP gvrP "c1" "ns1" "a" [mkObj "ns1" "a"] objA2
    (by decide) (by decide)

/-- Claim C9: `Clean` replaces exactly the target cluster's namespace map
with an empty one and returns nil when the resource type is present in the
resource map (which, for a fresh store, holds exactly the configured types),
returns a not-found error when it is not, and leaves every other cluster and
every other resource type untouched (the index configuration too). -/
theorem C9_clean (m : memoryStore) (gvr : GroupVersionResource) (cl : String) :
    ((alGet? m.resourceMap gvr).isSome →
      (Clean m gvr cl).2 = none ∧
      clusterEntry (Clean m gvr cl).1 gvr cl = some ⟨[]⟩ ∧
      (∀ cl', cl' ≠ cl → clusterEntry (Clean m gvr cl).1 gvr cl' = clusterEntry m gvr cl') ∧
      (∀ gvr', gvr' ≠ gvr →
        alGet? (Clean m gvr cl).1.resourceMap gvr' = alGet? m.resourceMap gvr') ∧
      (Clean m gvr cl).1.indexConf = m.indexConf) ∧
    (alGet? m.resourceMap gvr = none →
      (Clean m gvr cl).1 = m ∧ (Clean m gvr cl).2.isSome) ∧
    (∀ conf : List (GroupVersionResource × List (String × String)),
      (alGet? (NewMemoryStore conf).resourceMap gvr).isSome ↔ (alGet? conf gvr).isSome) := by
  refine ⟨?_, ?_, ?_⟩
  · intro h
    obtain ⟨cr, hcr⟩ := Option.isSome_iff_exists.mp h
    refine ⟨?_, ?_, ?_, ?_, ?_⟩
    · simp [Clean, hcr]
    · simp [Clean, clusterEntry, hcr, alGet?_set_self]
    · intro cl' hcl
      simp [Clean, clusterEntry, hcr, alGet?_set_self, alGet?_set_ne _ _ _ _ hcl]
    · intro gvr' hg
      simp [Clean, hcr, alGet?_set_ne _ _ _ _ hg]
    · simp [Clean, hcr]
  · intro h
    constructor <;> simp [Clean, h]
  · intro conf
    rw [NewMemoryStore_resourceMap_get]
    cases alGet? conf gvr <;> simp

theorem C9_clean_witness :
    (Clean w4m gvrP "c1").2 = none ∧
    clusterEntry (Clean w4m gvrP "c1").1 gvrP "c1" = some ⟨[]⟩ ∧
    (Clean (NewMemoryStore confP) ⟨"other", "v1", "x"⟩ "c").1 = NewMemoryStore confP :=
  ⟨((C9_clean w4m gvrP "c1").1 (by decide)).1,
   ((C9_clean w4m gvrP "c1").1 (by decide)).2.1,
   ((C9_clean (NewMemoryStore confP) ⟨"other", "v1", "x"⟩ "c").2.1 (by decide)).1⟩

/-- Claim C10 (amended): a query whose predicate matches zero objects returns
Total 0 and empty Items with Error equal to the last predicate-evaluation
error of the scan — nil when the predicate never errs, but NOT
unconditionally nil as claimed (see counterexample); the sort spec is never
parsed or validated in this case: the result is identical under every sort
spec, however malformed. -/
theorem C10_empty_filter (m : memoryStore) (gvr : GroupVersionResource) (q : StoreQuery)
    (h : (matchScan q (candidateObjs m gvr q.Namespace)).1 = []) :
    Query m gvr q = some ⟨[], 0, (matchScan q (candidateObjs m gvr q.Namespace)).2⟩ ∧
    (∀ s' : String,
      Query m gvr ⟨q.Namespace, q.Match, s', q.Page, q.PageSize⟩ = Query m gvr q) := by
  refine ⟨Query_empty_filter m gvr q h, ?_⟩
  intro s'
  rw [Query_empty_filter m gvr q h,
    Query_empty_filter m gvr ⟨q.Namespace, q.Match, s', q.Page, q.PageSize⟩ h]
  rfl

theorem C10_empty_filter_witness :
    Query (NewMemoryStore confP) gvrP q10 =
      some ⟨[], 0, (matchScan q10 (candidateObjs (NewMemoryStore confP) gvrP q10.Namespace)).2⟩ :=
  (C10_empty_filter (NewMemoryStore confP) gvrP q10 (by decide)).1

/-- Claim C10 counterexample: with one stored object and a predicate that
matches nothing but errors, the query (under a malformed sort spec) returns
Total 0 and empty Items yet a NON-nil Error, refuting the claim's
unconditional nil Error for zero-match queries. -/
theorem C10_counterexample :
    Query w4m gvrP q10 = some ⟨[], 0, some "boom"⟩ := by decide

end Ckube
